import Mathlib

/-!
Shallow embedding of the ADIOS block-layer I/O scheduler (src/adios.c,
version 0.7.1) and verification of the specification claims about it.

Machine integers are modelled as `Nat` with explicit reduction modulo
`2^64` (`w64`) or `2^32` (`w32`) exactly where the C code performs
64-bit respectively 32-bit arithmetic.  A C unsigned division whose
divisor can be zero (undefined behaviour) is modelled by an `Option`
result, `none` marking the division by zero.

The red-black tree `dl_queue` is modelled by the list of its elements
in the order of an in-order traversal, so that the list head is what
`rb_first` returns; `dl_insert` places a new element exactly where the
comparator of `adios_add_rq_rb` places it (descend left, i.e. towards
the head, exactly when `(s64)(existing.deadline - new.deadline) < 0`).

`jiffies` is passed explicitly as a parameter `j`/`now`;
`msecs_to_jiffies` is modelled as the identity (HZ = 1000), so the
`LM_INTERVAL_THRESHOLD` of 1500 ms is 1500 jiffies.

I/O statistics counters (`struct io_stats`) only record observability
data and are read by none of the modelled operations, so they are left
out of the state.  `latency_model_update` additionally returns the
`small_processed`/`large_processed` flags of the C function (the C code
leaves `large_processed` uninitialized when the large branch is not
taken; it is modelled as `false` there), and `latency_model_input`
additionally returns whether it triggered an immediate model update.
-/

def U64 : Nat := 2 ^ 64

def U32 : Nat := 2 ^ 32

/-- Reduction modulo 2^64: the value of a C `u64` expression. -/
def w64 (n : Nat) : Nat := n % U64

/-- Reduction modulo 2^32: the value of a C `u32` expression. -/
def w32 (n : Nat) : Nat := n % U32

/-- C `u64` subtraction `a - b` (two's complement wraparound). -/
def sub64 (a b : Nat) : Nat := (a + U64 - b % U64) % U64

/-- Rounding-up division, the spec's `ceil_div` and the kernel's
`DIV_ROUND_UP_ULL` (without the `u64` wrap of the addition, which is
applied explicitly at use sites). -/
def ceil_div (a b : Nat) : Nat := (a + b - 1) / b

/-- The four ADIOS operation categories, in C enumeration order
`ADIOS_READ`, `ADIOS_WRITE`, `ADIOS_DISCARD`, `ADIOS_OTHER`. -/
inductive OpType
  | read
  | write
  | discard
  | other
deriving DecidableEq

/-- A value per operation category (the C arrays indexed by optype). -/
structure PerOp (α : Type) where
  read : α
  write : α
  discard : α
  other : α
deriving DecidableEq

def PerOp.get {α : Type} (p : PerOp α) : OpType → α
  | .read => p.read
  | .write => p.write
  | .discard => p.discard
  | .other => p.other

def PerOp.set {α : Type} (p : PerOp α) : OpType → α → PerOp α
  | .read, v => { p with read := v }
  | .write, v => { p with write := v }
  | .discard, v => { p with discard := v }
  | .other, v => { p with other := v }

/-- `struct latency_bucket`. -/
structure LatencyBucket where
  count : Nat
  sum_latency : Nat
  sum_block_size : Nat
deriving DecidableEq

/-- `struct latency_model` (the two spinlocks are concurrency plumbing
and have no sequential content). -/
structure LatencyModel where
  base : Nat
  slope : Nat
  small_sum_delay : Nat
  small_count : Nat
  large_sum_delay : Nat
  large_sum_block_size : Nat
  last_updated_jiffies : Nat
  small_bucket : List LatencyBucket
  large_bucket : List LatencyBucket
deriving DecidableEq

def LM_BLOCK_SIZE_THRESHOLD : Nat := 4096
def LM_SAMPLES_THRESHOLD : Nat := 1024
def LM_INTERVAL_THRESHOLD : Nat := 1500
def LM_OUTLIER_PERCENTILE : Nat := 99
def LM_NUM_BUCKETS : Nat := 64

/-- A zeroed latency model as produced by `kzalloc` in
`adios_init_sched`, with `last_updated_jiffies` set to the current
jiffies `j0`. -/
def lm_init (j0 : Nat) : LatencyModel :=
  { base := 0, slope := 0, small_sum_delay := 0, small_count := 0,
    large_sum_delay := 0, large_sum_block_size := 0,
    last_updated_jiffies := j0,
    small_bucket := List.replicate 64 ⟨0, 0, 0⟩,
    large_bucket := List.replicate 64 ⟨0, 0, 0⟩ }

/-- `latency_model_input_bucket_index`.  All three quotients are `u64`
divisions by `predicted` truncated into the `u32` local
`bucket_index`; when `predicted = 0` the first two guards are false and
the third branch divides by zero (undefined behaviour), modelled as
`none`. -/
def latency_model_input_bucket_index (measured predicted : Nat) : Option Nat :=
  if measured < w64 (predicted * 2) then
    some (w32 (w64 (measured * 20) / predicted))
  else if measured < w64 (predicted * 5) then
    some (w32 (w64 (measured * 10) / predicted + 20))
  else if predicted = 0 then
    none
  else
    some (w32 (w64 (measured * 3) / predicted + 40))

/-- `latency_model_count_small_buckets`: `u32` accumulation of the
(`u64`) bucket counts. -/
def latency_model_count_small_buckets (m : LatencyModel) : Nat :=
  w32 (m.small_bucket.foldl (fun a b => a + b.count) 0)

/-- `latency_model_count_large_buckets`. -/
def latency_model_count_large_buckets (m : LatencyModel) : Nat :=
  w32 (m.large_bucket.foldl (fun a b => a + b.count) 0)

/-- The first loop of `latency_model_update_small_buckets` /
`..._large_buckets`: walk the buckets accumulating a `u32` running
count until it reaches `threshold`; returns the final
`cumulative_count` and the `outlier_threshold_bucket` (0 when the
threshold is never reached, as in C where the variable keeps its
initializer). -/
def find_outlier_go (threshold : Nat) : Nat → Nat → List LatencyBucket → Nat × Nat
  | cum, _, [] => (cum, 0)
  | cum, i, b :: rest =>
    let cum2 := w32 (cum + b.count)
    if threshold ≤ cum2 then (cum2, i) else find_outlier_go threshold cum2 (i + 1) rest

def find_outlier_bucket (bs : List LatencyBucket) (threshold : Nat) : Nat × Nat :=
  find_outlier_go threshold 0 0 bs

/-- The second loop of `latency_model_update_small_buckets`
(`for i = 0; i <= outlier_threshold_bucket`): full buckets below the
threshold bucket contribute wholly, the threshold bucket contributes a
count-proportional fraction.  Returns `(sum_latency, sum_count)`. -/
def trim_small_go (otb cum threshold : Nat) : Nat → Nat → Nat → List LatencyBucket → Nat × Nat
  | sl, sc, _, [] => (sl, sc)
  | sl, sc, i, b :: rest =>
    if i < otb then
      trim_small_go otb cum threshold (w64 (sl + b.sum_latency)) (w64 (sc + b.count)) (i + 1) rest
    else
      let remaining := sub64 threshold (sub64 cum b.count)
      let sl2 := if b.count ≠ 0 then w64 (sl + w64 (b.sum_latency * remaining) / b.count) else sl
      (sl2, w64 (sc + remaining))

/-- `latency_model_update_small_buckets` (its `bool` result is the
constant `true` and is returned by the caller-visible flag instead). -/
def latency_model_update_small_buckets (m : LatencyModel) (total_count : Nat)
    (count_all : Bool) : LatencyModel :=
  let pct := if count_all then 100 else LM_OUTLIER_PERCENTILE
  let threshold_count := w32 (total_count * pct) / 100
  let fo := find_outlier_bucket m.small_bucket threshold_count
  let sums := trim_small_go fo.2 fo.1 threshold_count 0 0 0 m.small_bucket
  { m with
    small_sum_delay := w64 (m.small_sum_delay + sums.1),
    small_count := w64 (m.small_count + sums.2),
    small_bucket := List.replicate 64 ⟨0, 0, 0⟩ }

/-- The second loop of `latency_model_update_large_buckets`; both
proportional contributions of the threshold bucket are guarded by
`count > 0`.  Returns `(sum_latency, sum_block_size)` (the C `s64`
`sum_latency` carries the same 64-bit pattern as a `u64`). -/
def trim_large_go (otb cum threshold : Nat) : Nat → Nat → Nat → List LatencyBucket → Nat × Nat
  | sl, sb, _, [] => (sl, sb)
  | sl, sb, i, b :: rest =>
    if i < otb then
      trim_large_go otb cum threshold (w64 (sl + b.sum_latency)) (w64 (sb + b.sum_block_size)) (i + 1) rest
    else
      let remaining := sub64 threshold (sub64 cum b.count)
      if b.count ≠ 0 then
        (w64 (sl + w64 (b.sum_latency * remaining) / b.count),
         w64 (sb + w64 (b.sum_block_size * remaining) / b.count))
      else
        (sl, sb)

/-- `latency_model_update_large_buckets`: the trimmed latency sum has
`base * threshold_count` (the pre-update base) subtracted, floored at
zero, before being folded into `large_sum_delay`. -/
def latency_model_update_large_buckets (m : LatencyModel) (total_count : Nat)
    (count_all : Bool) : LatencyModel :=
  let pct := if count_all then 100 else LM_OUTLIER_PERCENTILE
  let threshold_count := w32 (total_count * pct) / 100
  let fo := find_outlier_bucket m.large_bucket threshold_count
  let sums := trim_large_go fo.2 fo.1 threshold_count 0 0 0 m.large_bucket
  let intercept := w64 (m.base * threshold_count)
  { m with
    large_sum_delay :=
      if intercept < sums.1 then w64 (m.large_sum_delay + sub64 sums.1 intercept)
      else m.large_sum_delay,
    large_sum_block_size := w64 (m.large_sum_block_size + sums.2),
    large_bucket := List.replicate 64 ⟨0, 0, 0⟩ }

/-- The `time_elapsed` condition of `latency_model_update`. -/
def lm_time_elapsed (m : LatencyModel) (now : Nat) : Bool :=
  decide (m.base = 0 ∨ m.last_updated_jiffies + LM_INTERVAL_THRESHOLD ≤ now)

/-- The condition under which `latency_model_update` folds the small
histogram (the value of its `small_processed` local). -/
def latency_model_small_processed (m : LatencyModel) (now : Nat) : Bool :=
  latency_model_count_small_buckets m != 0 &&
    (lm_time_elapsed m now ||
     decide (LM_SAMPLES_THRESHOLD ≤ latency_model_count_small_buckets m) ||
     (m.base == 0))

/-- The condition under which `latency_model_update` folds the large
histogram (the value of its `large_processed` local; the C code leaves
it uninitialized when the guard is false, modelled as `false`). -/
def latency_model_large_processed (m : LatencyModel) (now : Nat) : Bool :=
  latency_model_count_large_buckets m != 0 &&
    (lm_time_elapsed m now ||
     decide (LM_SAMPLES_THRESHOLD ≤ latency_model_count_large_buckets m) ||
     (m.slope == 0))

/-- The state change of `latency_model_update` given the two
processing flags: fold the histograms that are due (bootstrap passes —
parameter still zero — disable trimming via `count_all`), then
recompute `base` and `slope` from the running accumulators, then
update the refresh timestamp when the time-based trigger fired. -/
def latency_model_update_apply (m : LatencyModel) (now : Nat) (sp lp : Bool) : LatencyModel :=
  let m1 := if sp then
      latency_model_update_small_buckets m (latency_model_count_small_buckets m) (m.base == 0)
    else m
  let m2 := if lp then
      latency_model_update_large_buckets m1 (latency_model_count_large_buckets m) (m.slope == 0)
    else m1
  let m3 := if sp && (m2.small_count != 0) then
      { m2 with base := m2.small_sum_delay / m2.small_count } else m2
  let m4 := if lp && (m3.large_sum_block_size != 0) then
      { m3 with slope := m3.large_sum_delay / (w64 (m3.large_sum_block_size + 1023) / 1024) }
    else m3
  if lm_time_elapsed m now then { m4 with last_updated_jiffies := now } else m4

/-- `latency_model_update`.  Returns the new model together with the
`small_processed` and `large_processed` flags of the C function. -/
def latency_model_update (m : LatencyModel) (now : Nat) : LatencyModel × Bool × Bool :=
  (latency_model_update_apply m now
     (latency_model_small_processed m now) (latency_model_large_processed m now),
   latency_model_small_processed m now, latency_model_large_processed m now)

/-- Record one sample into small bucket `bi` (clamped to the last
bucket): `count++`, `sum_latency += latency`. -/
def small_bucket_add (m : LatencyModel) (bi latency : Nat) : LatencyModel :=
  let i := if LM_NUM_BUCKETS ≤ bi then LM_NUM_BUCKETS - 1 else bi
  let b := m.small_bucket.getD i ⟨0, 0, 0⟩
  { m with small_bucket :=
      m.small_bucket.set i ⟨w64 (b.count + 1), w64 (b.sum_latency + latency), b.sum_block_size⟩ }

/-- Record one sample into large bucket `bi` (clamped): `count++`,
`sum_latency += latency`, `sum_block_size += block_size`. -/
def large_bucket_add (m : LatencyModel) (bi latency block_size : Nat) : LatencyModel :=
  let i := if LM_NUM_BUCKETS ≤ bi then LM_NUM_BUCKETS - 1 else bi
  let b := m.large_bucket.getD i ⟨0, 0, 0⟩
  let b2 : LatencyBucket :=
    ⟨w64 (b.count + 1), w64 (b.sum_latency + latency), w64 (b.sum_block_size + block_size)⟩
  { m with large_bucket := m.large_bucket.set i b2 }

/-- `latency_model_input` (with `j` the current jiffies for the update
it may trigger).  Returns `none` when the bucket-index computation
divides by zero; otherwise the new model and whether an immediate
`latency_model_update` was triggered. -/
def latency_model_input (m : LatencyModel) (block_size latency predicted_latency j : Nat) :
    Option (LatencyModel × Bool) :=
  if block_size ≤ LM_BLOCK_SIZE_THRESHOLD then
    match latency_model_input_bucket_index latency (if m.base = 0 then 1 else m.base) with
    | none => none
    | some bi =>
      let m2 := small_bucket_add m bi latency
      if m.base = 0 then some ((latency_model_update m2 j).1, true)
      else some (m2, false)
  else
    if m.base = 0 then some (m, false)
    else
      match latency_model_input_bucket_index latency predicted_latency with
      | none => none
      | some bi => some (large_bucket_add m bi latency block_size, false)

/-- `latency_model_predict`: `base`, plus for block sizes above the
threshold `slope` times the floor quotient `(size - threshold) / 1024`
(`div_u64` truncates). -/
def latency_model_predict (m : LatencyModel) (block_size : Nat) : Nat :=
  if LM_BLOCK_SIZE_THRESHOLD < block_size then
    w64 (m.base + w64 (m.slope * ((block_size - LM_BLOCK_SIZE_THRESHOLD) / 1024)))
  else
    m.base

/-- The spec formula for `predict`:
`base + slope * ceil_div(max(0, size - threshold), 1024)` (the `Nat`
subtraction already realizes the `max(0, _)`). -/
def latency_model_predict_spec (m : LatencyModel) (block_size : Nat) : Nat :=
  w64 (m.base + w64 (m.slope * ceil_div (block_size - LM_BLOCK_SIZE_THRESHOLD) 1024))

/-- The scheduling-relevant fields of a request: the `struct
adios_rq_data` fields (`block_size`, `predicted_latency`, `deadline`)
together with the `struct request` fields the scheduler reads
(`cmd_flags` as the derived optype, `start_time_ns`). -/
structure RqData where
  optype : OpType
  block_size : Nat
  start_time_ns : Nat
  predicted_latency : Nat
  deadline : Nat
deriving DecidableEq

/-- One of the two batch-queue pages: the per-optype request lists
`batch_queue[page][optype]` and the counters `batch_count[page][optype]`. -/
structure BatchPage where
  q : PerOp (List RqData)
  cnt : PerOp Nat
deriving DecidableEq

/-- `struct adios_data` together with the module-global tunables
(`global_latency_window`, `bq_refill_below_ratio`,
`adios_latency_targets`, `adios_batch_size_limit`), which the sysfs
store handlers mutate.  `dl_queue` is the in-order traversal of the
red-black tree (head = `rb_first`); `bq_page` is the active-page index
(two pages, a bit); `tpl` is `total_predicted_latency`. -/
structure State where
  dl_queue : List RqData
  prio_queue : List RqData
  latency_model : PerOp LatencyModel
  bq_page : Bool
  more_bq_ready : Bool
  page0 : BatchPage
  page1 : BatchPage
  tpl : Nat
  global_latency_window : Nat
  bq_refill_below_percent : Nat
  adios_latency_targets : PerOp Nat
  adios_batch_size_limit : PerOp Nat
deriving DecidableEq

/-- The page the dispatcher currently drains. -/
def active_page (s : State) : BatchPage :=
  if s.bq_page then s.page1 else s.page0

def set_active_page (s : State) (pg : BatchPage) : State :=
  if s.bq_page then { s with page1 := pg } else { s with page0 := pg }

/-- The page `adios_fill_batch_queues` fills: `(bq_page + 1) % 2`. -/
def fill_target_page (s : State) : BatchPage :=
  if s.bq_page then s.page0 else s.page1

def set_fill_target_page (s : State) (pg : BatchPage) : State :=
  if s.bq_page then { s with page0 := pg } else { s with page1 := pg }

/-- The rb-tree comparator of `adios_add_rq_rb`: descend to the left
child exactly when `(s64)(existing.deadline - incoming.deadline) < 0`,
i.e. when the `u64` difference has its top bit set. -/
def rb_cmp_left (existing incoming : Nat) : Bool :=
  decide (2 ^ 63 ≤ sub64 existing incoming)

/-- Insertion into the in-order traversal of `dl_queue`: the incoming
request ends up immediately before the first element whose comparison
sends it to the left, after every element whose comparison sends it to
the right (in particular after all elements with an equal deadline). -/
def dl_insert (rd : RqData) : List RqData → List RqData
  | [] => [rd]
  | t :: rest =>
    if rb_cmp_left t.deadline rd.deadline then rd :: t :: rest
    else t :: dl_insert rd rest

/-- The computation of `adios_add_rq_rb` before the tree walk:
`rd->block_size = blk_rq_bytes(rq)`, `rd->predicted_latency =
latency_model_predict(...)`, `rd->deadline = rq->start_time_ns +
adios_latency_targets[optype] + rd->predicted_latency` (u64). -/
def mk_rq_data (models : PerOp LatencyModel) (targets : PerOp Nat)
    (ot : OpType) (bytes start : Nat) : RqData :=
  let pred := latency_model_predict (models.get ot) bytes
  { optype := ot, block_size := bytes, start_time_ns := start,
    predicted_latency := pred,
    deadline := w64 (start + targets.get ot + pred) }

/-- `adios_add_rq_rb`. -/
def adios_add_rq_rb (s : State) (ot : OpType) (bytes start : Nat) : State :=
  { s with dl_queue :=
      dl_insert (mk_rq_data s.latency_model s.adios_latency_targets ot bytes start) s.dl_queue }

/-- `adios_insert_request` (merging by the host block layer is outside
the scheduler core).  A `BLK_MQ_INSERT_AT_HEAD` insertion goes to the
head of the priority queue without ever touching `adios_rq_data`, whose
zero-allocated fields therefore stay 0. -/
def adios_insert_request (s : State) (ot : OpType) (bytes start : Nat) (at_head : Bool) : State :=
  if at_head then
    { s with prio_queue :=
        ⟨ot, 0, start, 0, 0⟩ :: s.prio_queue }
  else
    adios_add_rq_rb s ot bytes start

/-- The loop of `adios_fill_batch_queues` over the deadline queue.
Arguments after the configuration: remaining queue, target page,
`total_predicted_latency`, the local `u64` accumulator `lat`, and the
local `u32` `count`.  Returns (remaining queue, page, tpl, count). -/
def fill_loop (models : PerOp LatencyModel) (limits : PerOp Nat) (window : Nat) :
    List RqData → BatchPage → Nat → Nat → Nat → List RqData × BatchPage × Nat × Nat
  | [], pg, tpl, _, count => ([], pg, tpl, count)
  | r :: rest, pg, tpl, lat, count =>
    let ot := r.optype
    let lat2 := w64 (lat + r.predicted_latency)
    if count ≠ 0 ∧ ((models.get ot).base = 0 ∨
        limits.get ot ≤ pg.cnt.get ot ∨ window < lat2) then
      (r :: rest, pg, tpl, count)
    else
      fill_loop models limits window rest
        { q := pg.q.set ot (pg.q.get ot ++ [r]),
          cnt := pg.cnt.set ot (w32 (pg.cnt.get ot + 1)) }
        (w64 (tpl + r.predicted_latency)) lat2 (w32 (count + 1))

/-- `adios_fill_batch_queues`: reset the target page's counters (its
lists are assumed drained and are kept), run the admission loop
starting from the current `total_predicted_latency`, and mark
`more_bq_ready` when anything was admitted.  Returns the `count`
together with the new state.  (The `tpl` argument of the C function is
a snapshot of the counter taken by the caller with no intervening
update, so it always equals the counter here.) -/
def adios_fill_batch_queues (s : State) : Nat × State :=
  let pg0 : BatchPage := { q := (fill_target_page s).q, cnt := ⟨0, 0, 0, 0⟩ }
  let out := fill_loop s.latency_model s.adios_batch_size_limit s.global_latency_window
    s.dl_queue pg0 s.tpl s.tpl 0
  let count := out.2.2.2
  let s2 := set_fill_target_page s out.2.1
  (count,
    { s2 with dl_queue := out.1, tpl := out.2.2.1,
              more_bq_ready := if count ≠ 0 then true else s2.more_bq_ready })

/-- `adios_flip_bq`. -/
def adios_flip_bq (s : State) : State :=
  { s with more_bq_ready := false, bq_page := !s.bq_page }

/-- The category scan of `adios_dispatch_from_bq`: pop the head of the
first non-empty per-optype list of a page, trying `ADIOS_READ`,
`ADIOS_WRITE`, `ADIOS_DISCARD`, `ADIOS_OTHER` in that order.  Dispatch
does not decrement the batch counters. -/
def scan_page (pg : BatchPage) : Option (RqData × BatchPage) :=
  match pg.q.read with
  | r :: t => some (r, { pg with q := { pg.q with read := t } })
  | [] =>
    match pg.q.write with
    | r :: t => some (r, { pg with q := { pg.q with write := t } })
    | [] =>
      match pg.q.discard with
      | r :: t => some (r, { pg with q := { pg.q with discard := t } })
      | [] =>
        match pg.q.other with
        | r :: t => some (r, { pg with q := { pg.q with other := t } })
        | [] => none

/-- The first operation a scan of a page would return: the head of the
lowest-index non-empty category sub-queue. -/
def page_first (pg : BatchPage) : Option RqData :=
  match pg.q.read, pg.q.write, pg.q.discard, pg.q.other with
  | r :: _, _, _, _ => some r
  | [], r :: _, _, _ => some r
  | [], [], r :: _, _ => some r
  | [], [], [], r :: _ => some r
  | [], [], [], [] => none

/-- Scan the active page of a state. -/
def try_scan (s : State) : Option (RqData × State) :=
  match scan_page (active_page s) with
  | some (r, pg) => some (r, set_active_page s pg)
  | none => none

/-- One round of the dispatch loop: scan the active page; on failure,
if the other page is marked ready, flip to it and scan again.  `inl`
is a dispatched request, `inr` the state in which the loop continues
past the `more_bq_ready` check. -/
def try_scan_flip (s : State) : (RqData × State) ⊕ State :=
  match try_scan s with
  | some rs => .inl rs
  | none =>
    if s.more_bq_ready then
      match try_scan (adios_flip_bq s) with
      | some rs => .inl rs
      | none => .inr (adios_flip_bq s)
    else .inr s

/-- `adios_dispatch_from_bq`.  The `while (true)` loop of the C code
terminates within two rounds because `adios_flip_bq` clears
`more_bq_ready` and `fill_tried` is set by the first fill attempt;
the unrolling below is exact. -/
def adios_dispatch_from_bq (s : State) : Option RqData × State :=
  let pre := !s.more_bq_ready &&
    decide (s.tpl < w64 (s.global_latency_window * s.bq_refill_below_percent) / 100)
  let s1 := if pre then (adios_fill_batch_queues s).2 else s
  match try_scan_flip s1 with
  | .inl (r, s2) => (some r, s2)
  | .inr s2 =>
    if pre then (none, s2)
    else
      let f := adios_fill_batch_queues s2
      let s3 := if f.1 ≠ 0 then adios_flip_bq f.2 else f.2
      match try_scan_flip s3 with
      | .inl (r, s4) => (some r, s4)
      | .inr s4 => (none, s4)

/-- `adios_dispatch_request`: serve the priority queue head first,
otherwise dispatch from the batch queues. -/
def adios_dispatch_request (s : State) : Option RqData × State :=
  match s.prio_queue with
  | r :: rest => (some r, { s with prio_queue := rest })
  | [] => adios_dispatch_from_bq s

/-- `adios_completed_request` (`j` is the current jiffies passed to the
latency-model update a sample may trigger; the debounced timer re-arm
is external).  `none` models the undefined behaviour of a
division by zero inside `latency_model_input`. -/
def adios_completed_request (s : State) (rd : RqData) (io_start_time now j : Nat) :
    Option State :=
  let s1 := { s with tpl := sub64 s.tpl rd.predicted_latency }
  if io_start_time = 0 ∨ rd.block_size = 0 then some s1
  else
    match latency_model_input (s.latency_model.get rd.optype) rd.block_size
        (sub64 now io_start_time) rd.predicted_latency j with
    | none => none
    | some mu => some { s1 with latency_model := s1.latency_model.set rd.optype mu.1 }

/-- The sysfs store handler `adios_lat_target_<name>_store` for a
successfully parsed value `nsec`: reset the category's fitted `base`
to zero and set the category's latency target. -/
def adios_lat_target_store (s : State) (ot : OpType) (nsec : Nat) : State :=
  let m := s.latency_model.get ot
  { s with latency_model := s.latency_model.set ot { m with base := 0 },
           adios_latency_targets := s.adios_latency_targets.set ot nsec }

/-- The initial scheduler state built by `adios_init_sched` (`kzalloc`
zeroes everything; `last_updated_jiffies` is set to the current
jiffies `j0`) together with the boot values of the module globals. -/
def adios_init (j0 : Nat) : State :=
  { dl_queue := [], prio_queue := [],
    latency_model := ⟨lm_init j0, lm_init j0, lm_init j0, lm_init j0⟩,
    bq_page := false, more_bq_ready := false,
    page0 := ⟨⟨[], [], [], []⟩, ⟨0, 0, 0, 0⟩⟩,
    page1 := ⟨⟨[], [], [], []⟩, ⟨0, 0, 0, 0⟩⟩,
    tpl := 0,
    global_latency_window := 16000000,
    bq_refill_below_percent := 15,
    adios_latency_targets := ⟨2000000, 750000000, 5000000000, 0⟩,
    adios_batch_size_limit := ⟨64, 32, 1, 1⟩ }

/-- One background step of the dispatcher between the entry of
`adios_dispatch_from_bq` and the extraction of a request: a fill of
the inactive page or a page flip. -/
inductive FillFlipStep : State → State → Prop
  | fill (s : State) : FillFlipStep s (adios_fill_batch_queues s).2
  | flip (s : State) : FillFlipStep s (adios_flip_bq s)

/-- The deadline queue in the order `rb_first`-first: every element is
followed only by elements with deadlines at most its own. -/
def dl_sorted (q : List RqData) : Prop :=
  List.Pairwise (fun a b => b.deadline ≤ a.deadline) q

/-! ### Generic helper lemmas -/

theorem PerOp.get_set {α : Type} (p : PerOp α) (a b : OpType) (v : α) :
    (p.set a v).get b = if a = b then v else p.get b := by
  cases a <;> cases b <;> simp [PerOp.get, PerOp.set]

theorem bucket_index_isSome (lat pred : Nat) (h : pred ≠ 0) :
    ∃ bi, latency_model_input_bucket_index lat pred = some bi := by
  unfold latency_model_input_bucket_index
  repeat' split
  any_goals exact ⟨_, rfl⟩

/-! ### Claim C1 -/

/-- Claim C1 (corrected): `latency_model_predict` returns `base` for
block sizes at or below the 4096-byte threshold, and
`base + slope * ((size - threshold) / 1024)` (u64, with the quotient
taken by truncating, i.e. floor, division — `div_u64` — not the
ceiling division of the spec formula) for sizes above it. -/
theorem claim_C1 (m : LatencyModel) (bs : Nat) :
    (bs ≤ LM_BLOCK_SIZE_THRESHOLD → latency_model_predict m bs = m.base) ∧
    (LM_BLOCK_SIZE_THRESHOLD < bs →
      latency_model_predict m bs =
        (m.base + m.slope * ((bs - LM_BLOCK_SIZE_THRESHOLD) / 1024)) % U64) := by
  constructor
  · intro h
    unfold latency_model_predict
    rw [if_neg (by omega)]
  · intro h
    unfold latency_model_predict
    rw [if_pos h]
    simp [w64, Nat.add_mod, Nat.mod_mod_of_dvd]

/-- Witness for claim C1 at a concrete model and size: base 7, slope
5, block size 5121 predicts `7 + 5 * ((5121 - 4096) / 1024) = 12`. -/
theorem claim_C1_witness :
    latency_model_predict ⟨7, 5, 0, 0, 0, 0, 0, [], []⟩ 5121 =
      (7 + 5 * ((5121 - LM_BLOCK_SIZE_THRESHOLD) / 1024)) % U64 :=
  (claim_C1 ⟨7, 5, 0, 0, 0, 0, 0, [], []⟩ 5121).2 (by decide)

/-- Counterexample to claim C1 as stated: at block size 4097 with base
7 and slope 5 the code predicts `7` (floor division gives a zero
size-dependent term) while the claimed formula
`base + slope * ceil_div(size - threshold, 1024)` gives `12`. -/
theorem claim_C1_counterexample :
    latency_model_predict ⟨7, 5, 0, 0, 0, 0, 0, [], []⟩ 4097 = 7 ∧
    latency_model_predict_spec ⟨7, 5, 0, 0, 0, 0, 0, [], []⟩ 4097 = 12 ∧
    (7 : Nat) ≠ 12 := by decide

/-! ### Claim C10 -/

/-- Claim C10 (confirmed): the per-category latency-target store, for a
successfully parsed value, sets the category's target latency and
resets the category's fitted `base` to zero, leaving `slope` and the
running accumulators (`small_sum_delay`, `small_count`,
`large_sum_delay`, `large_sum_block_size`) unchanged. -/
theorem claim_C10 (s : State) (ot : OpType) (v : Nat) :
    ((adios_lat_target_store s ot v).latency_model.get ot).base = 0 ∧
    (adios_lat_target_store s ot v).adios_latency_targets.get ot = v ∧
    ((adios_lat_target_store s ot v).latency_model.get ot).slope =
      (s.latency_model.get ot).slope ∧
    ((adios_lat_target_store s ot v).latency_model.get ot).small_sum_delay =
      (s.latency_model.get ot).small_sum_delay ∧
    ((adios_lat_target_store s ot v).latency_model.get ot).small_count =
      (s.latency_model.get ot).small_count ∧
    ((adios_lat_target_store s ot v).latency_model.get ot).large_sum_delay =
      (s.latency_model.get ot).large_sum_delay ∧
    ((adios_lat_target_store s ot v).latency_model.get ot).large_sum_block_size =
      (s.latency_model.get ot).large_sum_block_size := by
  cases ot <;> simp [adios_lat_target_store, PerOp.get, PerOp.set]

/-! ### Claim C9 -/

/-- Claim C9 (corrected): an Other-category operation admitted while
the Other model is still uninitialized (`base = 0` and `slope = 0`)
gets predicted latency 0 and deadline `arrival + target[Other]`; this
is not unconditional, because Other completions with nonzero block
size do feed the Other latency model (see the counterexample). -/
theorem claim_C9 (models : PerOp LatencyModel) (targets : PerOp Nat) (bytes start : Nat)
    (hb : (models.get .other).base = 0) (hs : (models.get .other).slope = 0) :
    (mk_rq_data models targets .other bytes start).predicted_latency = 0 ∧
    (mk_rq_data models targets .other bytes start).deadline =
      w64 (start + targets.get .other) := by
  have hp : latency_model_predict (models.get .other) bytes = 0 := by
    simp only [latency_model_predict, hb, hs]
    split <;> simp [w64]
  constructor
  · simp [mk_rq_data, hp]
  · simp [mk_rq_data, hp]

/-- Witness for claim C9: with the boot-time (all-zero) models, an
Other operation of 9999 bytes arriving at time 50 is admitted with
predicted latency 0 and deadline `w64 (50 + target[Other])`. -/
theorem claim_C9_witness :
    (mk_rq_data (adios_init 0).latency_model (adios_init 0).adios_latency_targets
       .other 9999 50).predicted_latency = 0 ∧
    (mk_rq_data (adios_init 0).latency_model (adios_init 0).adios_latency_targets
       .other 9999 50).deadline =
      w64 (50 + (adios_init 0).adios_latency_targets.get .other) :=
  claim_C9 (adios_init 0).latency_model (adios_init 0).adios_latency_targets 9999 50
    (by decide) (by decide)

/-- Counterexample to claim C9 as stated: in the execution below an
Other-category operation (4096 bytes, completed with latency 1000)
bootstraps the Other latency model to `base = 1000`, after which the
next admitted Other operation has predicted latency 1000 (not 0) and
deadline `50 + 0 + 1000 = 1050` (not arrival + target = 50). -/
theorem claim_C9_counterexample :
    (let t1 := adios_insert_request (adios_init 0) .other 4096 0 false
     let t2 := adios_dispatch_request t1
     let t3 := (adios_completed_request t2.2 (t2.1.getD ⟨.read, 0, 0, 0, 0⟩)
       10 1010 0).getD (adios_init 0)
     let t4 := adios_insert_request t3 .other 4096 50 false
     t2.1 = some ⟨.other, 4096, 0, 0, 0⟩ ∧
     (t3.latency_model.get .other).base = 1000 ∧
     t3.adios_latency_targets.get .other = 0 ∧
     t4.dl_queue = [⟨.other, 4096, 50, 1000, 1050⟩] ∧
     (1000 : Nat) ≠ 0 ∧ (1050 : Nat) ≠ 50) := by decide

/-! ### Claim C5 -/

/-- Claim C5 is a code bug: on the large path (`block_size > 4096`,
model already initialized) `latency_model_input` passes the stored
`predicted_latency` to the bucket-index computation with no fallback,
so an operation admitted while the model was still cold (predicted
latency 0) whose completion arrives after the model bootstrapped makes
the code divide by zero.  Concretely: `base = 1`, `block_size = 8192`,
`latency = 5`, `predicted_latency = 0`. -/
theorem claim_C5_div_by_zero :
    latency_model_input { lm_init 0 with base := 1 } 8192 5 0 0 = none ∧
    latency_model_input_bucket_index 5 0 = none := by decide

/-! ### Claim C6 -/

/-- Claim C6 (confirmed): when the model's `base` is zero (cold
start), a sample at or below the 4096-byte threshold is recorded into
the small histogram (reference latency falling back to 1) and a model
update is triggered immediately, while a sample above the threshold is
discarded, changing nothing. -/
theorem claim_C6 (m : LatencyModel) (bs lat pred j : Nat) (hb : m.base = 0) :
    (bs ≤ LM_BLOCK_SIZE_THRESHOLD →
      latency_model_input m bs lat pred j =
        some ((latency_model_update
          (small_bucket_add m ((latency_model_input_bucket_index lat 1).getD 0) lat) j).1,
          true)) ∧
    (LM_BLOCK_SIZE_THRESHOLD < bs →
      latency_model_input m bs lat pred j = some (m, false)) := by
  constructor
  · intro hbs
    obtain ⟨bi, hbi⟩ := bucket_index_isSome lat 1 one_ne_zero
    unfold latency_model_input
    rw [if_pos hbs, hb]
    simp only [if_pos rfl]
    rw [hbi]
    simp [hbi]
  · intro hbs
    unfold latency_model_input
    rw [if_neg (by omega), if_pos hb]

/-- Witness for claim C6: from the zeroed model, a small sample
(4096 bytes, latency 5) is recorded and immediately folded into the
model, and a large sample (8192 bytes) is discarded. -/
theorem claim_C6_witness :
    latency_model_input (lm_init 0) 4096 5 7 0 =
      some ((latency_model_update
        (small_bucket_add (lm_init 0) ((latency_model_input_bucket_index 5 1).getD 0) 5) 0).1,
        true) ∧
    latency_model_input (lm_init 0) 8192 5 7 0 = some (lm_init 0, false) :=
  ⟨(claim_C6 (lm_init 0) 4096 5 7 0 rfl).1 (by decide),
   (claim_C6 (lm_init 0) 8192 5 7 0 rfl).2 (by decide)⟩

/-! ### Claim C4 -/


/-- Claim C4 (corrected): `latency_model_update` folds the small
(resp. large) histogram — and hence recomputes `base` (resp. `slope`)
— only when the histogram is non-empty and additionally at least one
of the explicit triggers holds.  For `base` the triggers are: `base`
still zero, the 1500 ms update interval elapsed, or 1024 samples
accumulated.  For `slope` they are: `slope` still zero, `base` still
zero (`time_elapsed` is `!base || interval`, so a zeroed `base` — e.g.
after a latency-target store — also refolds the large histogram), the
1500 ms interval elapsed, or 1024 samples accumulated.  The latter
three of each list are ways (missing from the claim as stated) to
recompute from fewer than 1024 samples while the parameter is
initialized.  When the parameter is initialized, the fold is the
trimmed one (`count_all = false`, excluding the top
`100 - LM_OUTLIER_PERCENTILE` percent). -/
theorem claim_C4 (m : LatencyModel) (now : Nat) :
    ((latency_model_update m now).2.1 = true →
      latency_model_count_small_buckets m ≠ 0 ∧
      (m.base = 0 ∨ m.last_updated_jiffies + LM_INTERVAL_THRESHOLD ≤ now ∨
       LM_SAMPLES_THRESHOLD ≤ latency_model_count_small_buckets m)) ∧
    ((latency_model_update m now).2.1 = false →
      (latency_model_update m now).1.base = m.base) ∧
    ((latency_model_update m now).2.2 = true →
      latency_model_count_large_buckets m ≠ 0 ∧
      (m.slope = 0 ∨ m.base = 0 ∨ m.last_updated_jiffies + LM_INTERVAL_THRESHOLD ≤ now ∨
       LM_SAMPLES_THRESHOLD ≤ latency_model_count_large_buckets m)) ∧
    ((latency_model_update m now).2.2 = false →
      (latency_model_update m now).1.slope = m.slope) ∧
    (m.base ≠ 0 → (latency_model_update m now).2.1 = true →
      (latency_model_update m now).1.small_sum_delay =
        (latency_model_update_small_buckets m
          (latency_model_count_small_buckets m) false).small_sum_delay ∧
      (latency_model_update m now).1.small_count =
        (latency_model_update_small_buckets m
          (latency_model_count_small_buckets m) false).small_count) ∧
    (m.slope ≠ 0 → (latency_model_update m now).2.2 = true →
      (latency_model_update m now).1.large_sum_delay =
        (latency_model_update_large_buckets m
          (latency_model_count_large_buckets m) false).large_sum_delay ∧
      (latency_model_update m now).1.large_sum_block_size =
        (latency_model_update_large_buckets m
          (latency_model_count_large_buckets m) false).large_sum_block_size) := by
  refine ⟨?_, ?_, ?_, ?_, ?_, ?_⟩
  · intro hp
    replace hp : latency_model_small_processed m now = true := hp
    simp only [latency_model_small_processed, lm_time_elapsed, Bool.and_eq_true,
      Bool.or_eq_true, bne_iff_ne, decide_eq_true_eq, beq_iff_eq] at hp
    tauto
  · intro hp
    replace hp : latency_model_small_processed m now = false := hp
    show (latency_model_update_apply m now (latency_model_small_processed m now)
      (latency_model_large_processed m now)).base = m.base
    rw [hp]
    unfold latency_model_update_apply
    simp only [Bool.false_and, Bool.false_eq_true, if_false]
    split_ifs <;> rfl
  · intro hp
    replace hp : latency_model_large_processed m now = true := hp
    simp only [latency_model_large_processed, lm_time_elapsed, Bool.and_eq_true,
      Bool.or_eq_true, bne_iff_ne, decide_eq_true_eq, beq_iff_eq] at hp
    tauto
  · intro hp
    replace hp : latency_model_large_processed m now = false := hp
    show (latency_model_update_apply m now (latency_model_small_processed m now)
      (latency_model_large_processed m now)).slope = m.slope
    rw [hp]
    unfold latency_model_update_apply
    simp only [Bool.false_and, Bool.false_eq_true, if_false]
    split_ifs <;> rfl
  · intro hb hp
    replace hp : latency_model_small_processed m now = true := hp
    have hbb : (m.base == 0) = false := by simp [hb]
    show (latency_model_update_apply m now (latency_model_small_processed m now)
        (latency_model_large_processed m now)).small_sum_delay = _ ∧
      (latency_model_update_apply m now (latency_model_small_processed m now)
        (latency_model_large_processed m now)).small_count = _
    rw [hp]
    unfold latency_model_update_apply
    simp only [hbb, Bool.true_and, if_true]
    split_ifs <;> exact ⟨rfl, rfl⟩
  · intro hs hp
    replace hp : latency_model_large_processed m now = true := hp
    have hsb : (m.slope == 0) = false := by simp [hs]
    show (latency_model_update_apply m now (latency_model_small_processed m now)
        (latency_model_large_processed m now)).large_sum_delay = _ ∧
      (latency_model_update_apply m now (latency_model_small_processed m now)
        (latency_model_large_processed m now)).large_sum_block_size = _
    rw [hp]
    unfold latency_model_update_apply
    simp only [hsb, Bool.true_and, if_true]
    split_ifs <;> exact ⟨rfl, rfl⟩

/-- Witness for claim C4, at a model with `base = 7`, 100 samples in
the first small bucket and 1500 jiffies elapsed: the fold fires and
the explicit trigger disjunction holds, and the folded accumulators
are those of the trimmed (99th percentile) fold. -/
theorem claim_C4_witness :
    (let m : LatencyModel :=
      { base := 7, slope := 0, small_sum_delay := 7, small_count := 1,
        large_sum_delay := 0, large_sum_block_size := 0, last_updated_jiffies := 0,
        small_bucket := ⟨100, 100, 0⟩ :: List.replicate 63 ⟨0, 0, 0⟩,
        large_bucket := List.replicate 64 ⟨0, 0, 0⟩ }
     (latency_model_count_small_buckets m ≠ 0 ∧
      (m.base = 0 ∨ m.last_updated_jiffies + LM_INTERVAL_THRESHOLD ≤ 2000 ∨
       LM_SAMPLES_THRESHOLD ≤ latency_model_count_small_buckets m)) ∧
     (latency_model_update m 2000).1.small_count =
       (latency_model_update_small_buckets m
         (latency_model_count_small_buckets m) false).small_count) :=
  by exact ⟨(claim_C4 _ 2000).1 (by decide),
            ((claim_C4 _ 2000).2.2.2.2.1 (by decide) (by decide)).2⟩

/-- Counterexample to claim C4 as stated: with `base = 7 ≠ 0` and only
100 (< 1024) samples in the small histogram, 1500 jiffies after the
last update the small histogram is folded and `base` is recomputed
(here to `(7 + 99) / (1 + 99) = 1`), i.e. the time-elapsed trigger
recomputes an initialized parameter from fewer than 1024 samples. -/
theorem claim_C4_counterexample :
    (let m : LatencyModel :=
      { base := 7, slope := 0, small_sum_delay := 7, small_count := 1,
        large_sum_delay := 0, large_sum_block_size := 0, last_updated_jiffies := 0,
        small_bucket := ⟨100, 100, 0⟩ :: List.replicate 63 ⟨0, 0, 0⟩,
        large_bucket := List.replicate 64 ⟨0, 0, 0⟩ }
     (latency_model_update m 2000).2.1 = true ∧
     (latency_model_update m 2000).1.base = 1 ∧
     m.base = 7 ∧ (7 : Nat) ≠ 0 ∧ (1 : Nat) ≠ 7 ∧
     latency_model_count_small_buckets m = 100 ∧
     ¬LM_SAMPLES_THRESHOLD ≤ 100) := by decide

/-! ### Claim C2 -/

/-- Invariant of the admission loop of `adios_fill_batch_queues`: once
at least one operation has been admitted (`c ≠ 0`) with the running
counter at most `B ≥ window`, the counter stays at most `B`, because a
further operation is only admitted while the accumulated latency stays
within the window (the `u32` admission counter must not wrap for this,
hence the bound on the queue length). -/
theorem fill_loop_tpl_le (models : PerOp LatencyModel) (limits : PerOp Nat)
    (window B : Nat) (hw : window ≤ B) :
    ∀ (q : List RqData) (pg : BatchPage) (t c : Nat),
      t ≤ B → c ≠ 0 → c + q.length ≤ U32 →
      (fill_loop models limits window q pg t t c).2.2.1 ≤ B := by
  intro q
  induction q with
  | nil =>
    intro pg t c ht _ _
    simpa [fill_loop] using ht
  | cons r rest ih =>
    intro pg t c ht hc hlen
    simp only [fill_loop]
    split
    · exact ht
    · rename_i hcond
      have h3 : ¬ window < w64 (t + r.predicted_latency) :=
        fun hlt => hcond ⟨hc, Or.inr (Or.inr hlt)⟩
      have hlat : w64 (t + r.predicted_latency) ≤ B :=
        le_trans (Nat.le_of_not_lt h3) hw
      by_cases hcase : c + 1 < U32
      · have hweq : w32 (c + 1) = c + 1 := Nat.mod_eq_of_lt hcase
        refine ih _ _ _ hlat (by omega) ?_
        rw [hweq]
        simp only [List.length_cons] at hlen
        omega
      · have hrest : rest = [] := by
          simp only [List.length_cons] at hlen
          have : rest.length = 0 := by omega
          exact List.eq_nil_of_length_eq_zero this
        subst hrest
        simp [fill_loop]
        exact hlat

/-- Claim C2 (corrected): immediately after a fill from a non-empty
deadline queue (which always admits at least the first operation), the
total predicted-latency counter is at most
`max(window, pre-fill total + predicted latency of the first admitted
operation)` — i.e. per fill the budget is overshot by at most the
unconditionally admitted first operation, ON TOP of whatever the
counter already was.  The counter can therefore exceed the window by
more than one operation's worth across successive fills (see the
counterexample), which refutes the claim as stated.  The queue-length
bound keeps the `u32` admission counter from wrapping. -/
theorem claim_C2 (s : State) (r : RqData) (rest : List RqData)
    (hq : s.dl_queue = r :: rest) (hlen : s.dl_queue.length ≤ U32) :
    ((adios_fill_batch_queues s).2).tpl ≤
      max s.global_latency_window (w64 (s.tpl + r.predicted_latency)) := by
  rw [hq] at hlen
  simp only [List.length_cons] at hlen
  unfold adios_fill_batch_queues
  rw [hq]
  simp only [fill_loop, ne_eq, not_true_eq_false, false_and, if_false]
  have h1 : w32 (0 + 1) = 1 := by norm_num [w32, U32]
  rw [h1]
  exact fill_loop_tpl_le s.latency_model s.adios_batch_size_limit
    s.global_latency_window _ (le_max_left _ _) rest _ _ 1
    (le_max_right _ _) one_ne_zero (by omega)

/-- Witness for claim C2: filling after the first admission of a read
request into the boot-state scheduler keeps the counter within
`max(window, 0 + 0)`. -/
theorem claim_C2_witness :
    ((adios_fill_batch_queues (adios_insert_request (adios_init 0) .read 4096 0 false)).2).tpl ≤
      max (adios_insert_request (adios_init 0) .read 4096 0 false).global_latency_window
        (w64 ((adios_insert_request (adios_init 0) .read 4096 0 false).tpl +
          (0 : Nat))) :=
  claim_C2 (adios_insert_request (adios_init 0) .read 4096 0 false)
    ⟨.read, 4096, 0, 0, 2000000⟩ [] (by decide) (by decide)

/-- Counterexample to claim C2 as stated: a read completion of 20 ms
bootstraps the read model to `base = 20000000` (above the 16 ms
window).  A first fill then admits one read with predicted latency
20000000 (counter 20000000, overshoot 4000000 — still within one
operation's worth).  With that operation dispatched but not completed,
the next fill again unconditionally admits its first operation,
raising the counter to 40000000: it now exceeds the 16000000 window by
24000000; this exceeds 20000000, the largest predicted latency of any
operation involved, so the excess is more than "one operation's
worth". -/
theorem claim_C2_counterexample :
    (let s1 := adios_insert_request (adios_init 0) .read 4096 0 false
     let d1 := adios_dispatch_request s1
     let s2 := (adios_completed_request d1.2 (d1.1.getD ⟨.read, 0, 0, 0, 0⟩)
       10 20000010 0).getD (adios_init 0)
     let s3 := adios_insert_request s2 .read 4096 100 false
     let d2 := adios_dispatch_request s3
     let s4 := adios_insert_request d2.2 .read 4096 200 false
     d2.1 = some ⟨.read, 4096, 100, 20000000, 22000100⟩ ∧
     s4.tpl = 20000000 ∧
     s4.dl_queue = [⟨.read, 4096, 200, 20000000, 22000200⟩] ∧
     s4.global_latency_window = 16000000 ∧
     (adios_fill_batch_queues s4).1 = 1 ∧
     (adios_fill_batch_queues s4).2.tpl = 40000000 ∧
     (adios_dispatch_request s4).2.tpl = 40000000 ∧
     16000000 + 20000000 < 40000000) := by decide

/-! ### Claim C3 -/

/-- The admission loop only appends to the per-optype lists of the
page being filled. -/
theorem fill_loop_q_extends (models : PerOp LatencyModel) (limits : PerOp Nat) (window : Nat) :
    ∀ (q : List RqData) (pg : BatchPage) (t l c : Nat) (ot : OpType),
      ∃ suf, ((fill_loop models limits window q pg t l c).2.1).q.get ot =
        pg.q.get ot ++ suf := by
  intro q
  induction q with
  | nil =>
    intro pg t l c ot
    exact ⟨[], by simp [fill_loop]⟩
  | cons r rest ih =>
    intro pg t l c ot
    simp only [fill_loop]
    split
    · exact ⟨[], by simp⟩
    · obtain ⟨suf, hsuf⟩ := ih
        { q := pg.q.set r.optype (pg.q.get r.optype ++ [r]),
          cnt := pg.cnt.set r.optype (w32 (pg.cnt.get r.optype + 1)) }
        (w64 (t + r.predicted_latency)) (w64 (l + r.predicted_latency)) (w32 (c + 1)) ot
      by_cases hot : r.optype = ot
      · subst hot
        refine ⟨r :: suf, ?_⟩
        rw [hsuf, PerOp.get_set, if_pos rfl]
        simp
      · refine ⟨suf, ?_⟩
        rw [hsuf, PerOp.get_set, if_neg hot]

/-- The page filled by `adios_fill_batch_queues` as seen in the
post-state is the page computed by the admission loop. -/
theorem fill_target_page_after_fill (s : State) :
    fill_target_page (adios_fill_batch_queues s).2 =
      (fill_loop s.latency_model s.adios_batch_size_limit s.global_latency_window s.dl_queue
        { q := (fill_target_page s).q, cnt := ⟨0, 0, 0, 0⟩ } s.tpl s.tpl 0).2.1 := by
  cases hb : s.bq_page <;>
    simp [adios_fill_batch_queues, fill_target_page, set_fill_target_page, hb]

/-- Claim C3 (corrected): the first operation of a fill pass is indeed
admitted unconditionally (first conjunct: it lands in its category's
sub-queue of the target page).  But EVERY subsequent operation whose
admission would push the running total of predicted in-flight latency
above the global window is NOT admitted: the second conjunct covers
the admission loop of `adios_fill_batch_queues` at an arbitrary point
of any pass — whenever at least one operation has already been
admitted (`c ≠ 0`) and the next operation `r` taken from the deadline
index would push the running `lat` above the window, the loop returns
immediately with nothing further admitted and `r` still at the head of
the remaining queue.  The third conjunct instantiates this for a pass
whose second operation crosses, stated directly on
`adios_fill_batch_queues`.  The batch is truncated before crossing the
line, contrary to the claim; only the first operation of a pass can
cross it. -/
theorem claim_C3 (s : State) (r1 r2 : RqData) (rest : List RqData) :
    (s.dl_queue = r1 :: rest →
      ∃ suf, (fill_target_page (adios_fill_batch_queues s).2).q.get r1.optype =
        (fill_target_page s).q.get r1.optype ++ r1 :: suf) ∧
    (∀ (models : PerOp LatencyModel) (limits : PerOp Nat) (window : Nat)
       (r : RqData) (q : List RqData) (pg : BatchPage) (tpl lat c : Nat),
      c ≠ 0 → window < w64 (lat + r.predicted_latency) →
      fill_loop models limits window (r :: q) pg tpl lat c = (r :: q, pg, tpl, c)) ∧
    (s.dl_queue = r1 :: r2 :: rest →
      s.global_latency_window <
        w64 (w64 (s.tpl + r1.predicted_latency) + r2.predicted_latency) →
      (adios_fill_batch_queues s).1 = 1 ∧
      (adios_fill_batch_queues s).2.dl_queue = r2 :: rest) := by
  refine ⟨?_, ?_, ?_⟩
  · intro hq
    rw [fill_target_page_after_fill, hq]
    simp only [fill_loop, ne_eq, not_true_eq_false, false_and, if_false]
    obtain ⟨suf, hsuf⟩ := fill_loop_q_extends s.latency_model s.adios_batch_size_limit
      s.global_latency_window rest
      { q := (fill_target_page s).q.set r1.optype
          ((fill_target_page s).q.get r1.optype ++ [r1]),
        cnt := PerOp.set ⟨0, 0, 0, 0⟩ r1.optype
          (w32 (PerOp.get (⟨0, 0, 0, 0⟩ : PerOp Nat) r1.optype + 1)) }
      (w64 (s.tpl + r1.predicted_latency)) (w64 (s.tpl + r1.predicted_latency))
      (w32 (0 + 1)) r1.optype
    refine ⟨suf, ?_⟩
    rw [hsuf, PerOp.get_set, if_pos rfl]
    simp
  · intro models limits window r q pg tpl lat c hc hlt
    simp only [fill_loop]
    rw [if_pos ⟨hc, Or.inr (Or.inr hlt)⟩]
  · intro hq hlt
    have hc1 : w32 (0 + 1) ≠ 0 := by norm_num [w32, U32]
    unfold adios_fill_batch_queues
    rw [hq]
    simp only [fill_loop, ne_eq, not_true_eq_false, false_and, if_false]
    rw [if_pos ⟨hc1, Or.inr (Or.inr hlt)⟩]
    refine ⟨by norm_num [w32, U32], rfl⟩

/-- Witness for claim C3.  Third conjunct: with a read model of base
9 ms and two 9 ms-predicted reads queued against the default 16 ms
window, the fill admits exactly the first and leaves the second at the
head of the deadline queue.  Second conjunct, at a mid-pass point:
with two 7 ms reads already admitted (`c = 2`, running total 14 ms), a
third 7 ms read that would raise the total to 21 ms > 16 ms is not
admitted and the loop stops, leaving it and everything behind it in
the remaining queue. -/
theorem claim_C3_witness :
    (let s : State :=
      { adios_init 0 with
        latency_model := ⟨{ lm_init 0 with base := 9000000 },
          lm_init 0, lm_init 0, lm_init 0⟩,
        dl_queue := [⟨.read, 4096, 100, 9000000, 11000100⟩,
          ⟨.read, 4096, 0, 9000000, 11000000⟩] }
     let pg : BatchPage :=
       ⟨⟨[⟨.read, 4096, 100, 7000000, 9100000⟩, ⟨.read, 4096, 200, 7000000, 9200000⟩],
         [], [], []⟩, ⟨2, 0, 0, 0⟩⟩
     ((adios_fill_batch_queues s).1 = 1 ∧
      (adios_fill_batch_queues s).2.dl_queue = [⟨.read, 4096, 0, 9000000, 11000000⟩]) ∧
     fill_loop s.latency_model s.adios_batch_size_limit 16000000
       [⟨.read, 4096, 300, 7000000, 9300000⟩, ⟨.read, 4096, 400, 7000000, 9400000⟩]
       pg 14000000 14000000 2 =
       ([⟨.read, 4096, 300, 7000000, 9300000⟩, ⟨.read, 4096, 400, 7000000, 9400000⟩],
        pg, 14000000, 2)) := by
  exact ⟨(claim_C3 _ ⟨.read, 4096, 100, 9000000, 11000100⟩
            ⟨.read, 4096, 0, 9000000, 11000000⟩ []).2.2 (by decide) (by decide),
         (claim_C3 (adios_init 0) ⟨.read, 4096, 100, 9000000, 11000100⟩
            ⟨.read, 4096, 0, 9000000, 11000000⟩ []).2.1
           _ _ _ _ _ _ _ _ _ (by decide) (by decide)⟩

/-- Counterexample to claim C3 as stated: same state as the witness —
two reads of predicted latency 9 ms against a 16 ms window and an
empty in-flight counter.  Admitting the second read would raise the
running total to 18 ms > 16 ms; the claim says it is "still admitted
before filling stops", but the fill admits only the first read
(count 1) and the second remains in the deadline index. -/
theorem claim_C3_counterexample :
    (let s : State :=
      { adios_init 0 with
        latency_model := ⟨{ lm_init 0 with base := 9000000 },
          lm_init 0, lm_init 0, lm_init 0⟩,
        dl_queue := [⟨.read, 4096, 100, 9000000, 11000100⟩,
          ⟨.read, 4096, 0, 9000000, 11000000⟩] }
     s.global_latency_window < w64 (w64 (s.tpl + 9000000) + 9000000) ∧
     (adios_fill_batch_queues s).1 = 1 ∧
     (adios_fill_batch_queues s).2.dl_queue = [⟨.read, 4096, 0, 9000000, 11000000⟩] ∧
     (fill_target_page (adios_fill_batch_queues s).2).q.get .read =
       [⟨.read, 4096, 100, 9000000, 11000100⟩]) := by decide

/-! ### Claim C7 -/

/-- For deadlines below `2^63` (no `s64` wraparound), the tree
comparator sends the incoming request left of an existing node exactly
when the existing deadline is strictly smaller. -/
theorem rb_cmp_left_iff (a b : Nat) (ha : a < 2 ^ 63) (hb : b < 2 ^ 63) :
    rb_cmp_left a b = true ↔ a < b := by
  unfold rb_cmp_left sub64 U64
  rw [decide_eq_true_iff]
  have h63 : (2 : Nat) ^ 63 = 9223372036854775808 := by norm_num
  have h64 : (2 : Nat) ^ 64 = 18446744073709551616 := by norm_num
  rw [h63, h64] at *
  omega

/-- Elements of `dl_insert rd q` are `rd` or elements of `q`. -/
theorem dl_insert_mem (rd : RqData) :
    ∀ (q : List RqData) (x : RqData), x ∈ dl_insert rd q → x = rd ∨ x ∈ q := by
  intro q
  induction q with
  | nil =>
    intro x hx
    simp [dl_insert] at hx
    exact Or.inl hx
  | cons t rest ih =>
    intro x hx
    simp only [dl_insert] at hx
    split at hx
    · rcases List.mem_cons.1 hx with h | h
      · exact Or.inl h
      · exact Or.inr h
    · rcases List.mem_cons.1 hx with h | h
      · exact Or.inr (by simp [h])
      · rcases ih x h with h2 | h2
        · exact Or.inl h2
        · exact Or.inr (List.mem_cons_of_mem _ h2)

/-- `dl_insert` preserves descending deadline order when no deadline
wraps the `s64` comparison. -/
theorem dl_insert_sorted (rd : RqData) (hrd : rd.deadline < 2 ^ 63) :
    ∀ q, dl_sorted q → (∀ x ∈ q, x.deadline < 2 ^ 63) →
      dl_sorted (dl_insert rd q) := by
  intro q
  induction q with
  | nil =>
    intro _ _
    simp [dl_insert, dl_sorted]
  | cons t rest ih =>
    intro hs hb
    rw [dl_sorted, List.pairwise_cons] at hs
    simp only [dl_insert]
    split
    · rename_i hc
      have htlt : t.deadline < rd.deadline :=
        (rb_cmp_left_iff t.deadline rd.deadline (hb t (by simp)) hrd).1 hc
      rw [dl_sorted, List.pairwise_cons]
      constructor
      · intro x hx
        rcases List.mem_cons.1 hx with h | h
        · exact h ▸ Nat.le_of_lt htlt
        · exact le_trans (hs.1 x h) (Nat.le_of_lt htlt)
      · rw [dl_sorted] at *
        exact List.Pairwise.cons hs.1 hs.2
    · rename_i hc
      have hge : rd.deadline ≤ t.deadline := by
        have := (rb_cmp_left_iff t.deadline rd.deadline (hb t (by simp)) hrd)
        rcases Nat.lt_or_ge t.deadline rd.deadline with h | h
        · exact absurd (this.2 h) hc
        · exact h
      rw [dl_sorted, List.pairwise_cons]
      constructor
      · intro x hx
        rcases dl_insert_mem rd rest x hx with h | h
        · exact h ▸ hge
        · exact hs.1 x h
      · exact ih hs.2 (fun x hx => hb x (List.mem_cons_of_mem _ hx))

/-- Claim C7 (confirmed): at admission `adios_add_rq_rb` stores
`predicted_latency = predict(model[optype], size)` and
`deadline = start_time_ns + target[optype] + predicted_latency` (u64),
and inserts into the deadline index at the position determined by the
tree comparator; under the comparator the index is kept ordered by
deadline (descending in `rb_first` order, equal deadlines after
existing ones — a deterministic tie-break). -/
theorem claim_C7 (models : PerOp LatencyModel) (targets : PerOp Nat) (ot : OpType)
    (bytes start : Nat) (s : State) (q : List RqData) :
    (mk_rq_data models targets ot bytes start).predicted_latency =
      latency_model_predict (models.get ot) bytes ∧
    (mk_rq_data models targets ot bytes start).deadline =
      w64 (start + targets.get ot +
        (mk_rq_data models targets ot bytes start).predicted_latency) ∧
    (adios_add_rq_rb s ot bytes start).dl_queue =
      dl_insert (mk_rq_data s.latency_model s.adios_latency_targets ot bytes start)
        s.dl_queue ∧
    (dl_sorted q → (∀ x ∈ q, x.deadline < 2 ^ 63) →
      (mk_rq_data models targets ot bytes start).deadline < 2 ^ 63 →
      dl_sorted (dl_insert (mk_rq_data models targets ot bytes start) q)) := by
  refine ⟨rfl, rfl, rfl, ?_⟩
  intro hs hb hd
  exact dl_insert_sorted _ hd q hs hb

/-- Witness for claim C7: inserting a fresh read (deadline 2000000)
into a queue holding a read with deadline 2000100 keeps the queue
sorted in descending deadline order. -/
theorem claim_C7_witness :
    dl_sorted (dl_insert
      (mk_rq_data (adios_init 0).latency_model (adios_init 0).adios_latency_targets
        .read 4096 0)
      [⟨.read, 4096, 100, 0, 2000100⟩]) :=
  (claim_C7 (adios_init 0).latency_model (adios_init 0).adios_latency_targets
    .read 4096 0 (adios_init 0) [⟨.read, 4096, 100, 0, 2000100⟩]).2.2.2
    (by constructor <;> simp) (by intro x hx; simp at hx; rw [hx]; norm_num)
    (by norm_num [mk_rq_data, latency_model_predict, adios_init, lm_init,
      PerOp.get, LM_BLOCK_SIZE_THRESHOLD, w64, U64])

/-! ### Claim C8 -/

/-- The category scan pops exactly the head of the lowest-index
non-empty sub-queue, in the fixed order Read, Write, Discard, Other. -/
theorem scan_page_map_fst (pg : BatchPage) :
    (scan_page pg).map Prod.fst = page_first pg := by
  rcases pg with ⟨⟨qr, qw, qd, qo⟩, c⟩
  cases qr <;> cases qw <;> cases qd <;> cases qo <;> rfl

/-- A successful `try_scan` is a successful `scan_page` of the active
page, and only the active page changes. -/
theorem try_scan_some (s : State) (r : RqData) (s2 : State)
    (h : try_scan s = some (r, s2)) :
    ∃ pg, scan_page (active_page s) = some (r, pg) ∧ s2 = set_active_page s pg := by
  unfold try_scan at h
  cases hs : scan_page (active_page s) with
  | none => rw [hs] at h; simp at h
  | some rp =>
    rw [hs] at h
    cases rp with
    | mk a pg =>
      simp only [Option.some.injEq, Prod.mk.injEq] at h
      exact ⟨pg, by rw [h.1], h.2.symm⟩

/-- A request returned by a dispatch round comes from a scan of the
active page, either directly or after one flip to the pre-filled page. -/
theorem try_scan_flip_inl (s : State) (r : RqData) (s2 : State)
    (h : try_scan_flip s = .inl (r, s2)) :
    (∃ pg, scan_page (active_page s) = some (r, pg)) ∨
    (∃ pg, scan_page (active_page (adios_flip_bq s)) = some (r, pg)) := by
  unfold try_scan_flip at h
  split at h
  · rename_i rs heq
    simp only [Sum.inl.injEq] at h
    rw [h] at heq
    obtain ⟨pg, hpg, _⟩ := try_scan_some s r s2 heq
    exact Or.inl ⟨pg, hpg⟩
  · split at h
    · split at h
      · rename_i rs heq
        simp only [Sum.inl.injEq] at h
        rw [h] at heq
        obtain ⟨pg, hpg, _⟩ := try_scan_some _ r s2 heq
        exact Or.inr ⟨pg, hpg⟩
      · exact absurd h (by simp)
    · exact absurd h (by simp)

/-- A dispatch round that found nothing leaves the state unchanged or
flipped once. -/
theorem try_scan_flip_inr (s : State) (s2 : State)
    (h : try_scan_flip s = .inr s2) :
    s2 = s ∨ s2 = adios_flip_bq s := by
  unfold try_scan_flip at h
  split at h
  · exact absurd h (by simp)
  · split at h
    · split at h
      · exact absurd h (by simp)
      · simp only [Sum.inr.injEq] at h
        exact Or.inr h.symm
    · simp only [Sum.inr.injEq] at h
      exact Or.inl h.symm

/-- Claim C8 (confirmed): a dispatch call returns the head of the
priority lane whenever that lane is non-empty, touching nothing else
(first conjunct — the batch pages are not consulted); the scan of a
page returns the first operation of the lowest-priority-index
non-empty category sub-queue in the fixed order Read, Write, Discard,
Other (second conjunct); and when the priority lane is empty, any
returned operation was popped by such a scan of the active page of a
state reached from the call state by fill/flip steps only (third
conjunct — FIFO within a sub-queue, since fills append at the tail and
the scan pops the head). -/
theorem claim_C8 (s : State) :
    (∀ r rest, s.prio_queue = r :: rest →
      adios_dispatch_request s = (some r, { s with prio_queue := rest })) ∧
    (∀ pg, (scan_page pg).map Prod.fst = page_first pg) ∧
    (∀ r s2, s.prio_queue = [] → adios_dispatch_request s = (some r, s2) →
      ∃ s1 pg, Relation.ReflTransGen FillFlipStep s s1 ∧
        scan_page (active_page s1) = some (r, pg)) := by
  refine ⟨?_, fun pg => scan_page_map_fst pg, ?_⟩
  · intro r rest hq
    unfold adios_dispatch_request
    rw [hq]
  · intro r s2 hprio hd
    unfold adios_dispatch_request at hd
    rw [hprio] at hd
    unfold adios_dispatch_from_bq at hd
    by_cases hpre : (!s.more_bq_ready &&
        decide (s.tpl < w64 (s.global_latency_window * s.bq_refill_below_percent) / 100)) = true
    · simp only [hpre, if_true] at hd
      split at hd
      · rename_i rs heq
        rcases rs with ⟨a, s3⟩
        simp only [Prod.mk.injEq, Option.some.injEq] at hd
        rw [hd.1] at heq
        rcases try_scan_flip_inl _ _ _ heq with ⟨pg, hpg⟩ | ⟨pg, hpg⟩
        · exact ⟨(adios_fill_batch_queues s).2, pg,
            Relation.ReflTransGen.single (FillFlipStep.fill s), hpg⟩
        · exact ⟨adios_flip_bq (adios_fill_batch_queues s).2, pg,
            Relation.ReflTransGen.tail
              (Relation.ReflTransGen.single (FillFlipStep.fill s))
              (FillFlipStep.flip _), hpg⟩
      · simp at hd
    · have hpre2 : (!s.more_bq_ready &&
          decide (s.tpl < w64 (s.global_latency_window * s.bq_refill_below_percent) / 100))
          = false := by
        revert hpre
        cases (!s.more_bq_ready &&
          decide (s.tpl < w64 (s.global_latency_window * s.bq_refill_below_percent) / 100)) <;>
          simp
      simp only [hpre2, Bool.false_eq_true, if_false] at hd
      split at hd
      · rename_i rs heq
        rcases rs with ⟨a, s3⟩
        simp only [Prod.mk.injEq, Option.some.injEq] at hd
        rw [hd.1] at heq
        rcases try_scan_flip_inl _ _ _ heq with ⟨pg, hpg⟩ | ⟨pg, hpg⟩
        · exact ⟨s, pg, Relation.ReflTransGen.refl, hpg⟩
        · exact ⟨adios_flip_bq s, pg,
            Relation.ReflTransGen.single (FillFlipStep.flip s), hpg⟩
      · rename_i s3 heq
        have hreach3 : Relation.ReflTransGen FillFlipStep s s3 := by
          rcases try_scan_flip_inr _ _ heq with h | h
          · rw [h]
          · rw [h]
            exact Relation.ReflTransGen.single (FillFlipStep.flip s)
        by_cases hf : (adios_fill_batch_queues s3).1 ≠ 0
        · simp only [if_pos hf] at hd
          have hreach4 : Relation.ReflTransGen FillFlipStep s
              (adios_flip_bq (adios_fill_batch_queues s3).2) :=
            Relation.ReflTransGen.tail
              (Relation.ReflTransGen.tail hreach3 (FillFlipStep.fill s3))
              (FillFlipStep.flip _)
          split at hd
          · rename_i rs heq2
            rcases rs with ⟨a, s4⟩
            simp only [Prod.mk.injEq, Option.some.injEq] at hd
            rw [hd.1] at heq2
            rcases try_scan_flip_inl _ _ _ heq2 with ⟨pg, hpg⟩ | ⟨pg, hpg⟩
            · exact ⟨_, pg, hreach4, hpg⟩
            · exact ⟨_, pg,
                Relation.ReflTransGen.tail hreach4 (FillFlipStep.flip _), hpg⟩
          · simp at hd
        · simp only [if_neg hf] at hd
          have hreach4 : Relation.ReflTransGen FillFlipStep s
              (adios_fill_batch_queues s3).2 :=
            Relation.ReflTransGen.tail hreach3 (FillFlipStep.fill s3)
          split at hd
          · rename_i rs heq2
            rcases rs with ⟨a, s4⟩
            simp only [Prod.mk.injEq, Option.some.injEq] at hd
            rw [hd.1] at heq2
            rcases try_scan_flip_inl _ _ _ heq2 with ⟨pg, hpg⟩ | ⟨pg, hpg⟩
            · exact ⟨_, pg, hreach4, hpg⟩
            · exact ⟨_, pg,
                Relation.ReflTransGen.tail hreach4 (FillFlipStep.flip _), hpg⟩
          · simp at hd

/-- Witness for claim C8: a state with one operation in the priority
lane dispatches it, leaving everything but the lane untouched. -/
theorem claim_C8_witness :
    (let s : State := { adios_init 0 with prio_queue := [⟨.other, 0, 5, 0, 0⟩] }
     adios_dispatch_request s = (some ⟨.other, 0, 5, 0, 0⟩,
       { s with prio_queue := [] })) := by
  exact (claim_C8 _).1 _ _ rfl
